import Mathlib

/-!
# CppTrafficSim: the traffic light and its message queue

A shallow embedding of `src/TrafficLight.cpp`.

* `MessageQueue T` is the `std::deque<T> _queue` of the class template; the
  mutex and the condition variable only decide *when* a call may proceed, so a
  call of `receive` that finds the wait predicate `!_queue.empty()` false is
  rendered as `none` (the caller is suspended in `_queue_cv.wait`).
* `TrafficLight` carries `_currentPhase` and `_messages`.
* Member functions are state-passing functions with the names of the source.
-/

namespace TrafficSim

/-! ## Data model -/

/-- The two phases of a traffic light (`enum TrafficLightPhase`). -/
inductive TrafficLightPhase where
  | red
  | green
  deriving DecidableEq, Repr

/-- The content of a `MessageQueue<T>`: the deque `_queue`, front first. -/
structure MessageQueue (T : Type) where
  _queue : List T
  deriving DecidableEq, Repr

/-- The data members of `TrafficLight` that the member functions touch. -/
structure TrafficLight where
  _currentPhase : TrafficLightPhase
  _messages : MessageQueue TrafficLightPhase
  deriving DecidableEq, Repr

/-! ## `MessageQueue` -/

/-- A queue right after construction: the deque is empty. -/
def MessageQueue.empty {T : Type} : MessageQueue T := ⟨[]⟩

/-- Member function `MessageQueue<T>::receive` (lines 8-20).  The wait predicate is
`!_queue.empty()`: on an empty deque the caller stays suspended (`none`);
otherwise the front element is moved out, popped and returned. -/
def MessageQueue.receive {T : Type} (q : MessageQueue T) : Option (T × MessageQueue T) :=
  match q._queue with
  | [] => none
  | message :: rest => some (message, ⟨rest⟩)

/-- Member function `MessageQueue<T>::send` (lines 22-30): `_queue.push_back(std::move(msg))`
followed by a notification. -/
def MessageQueue.send {T : Type} (q : MessageQueue T) (msg : T) : MessageQueue T :=
  ⟨q._queue ++ [msg]⟩

/-- The calls `send(v1); ...; send(vn)` in this order. -/
def sendAll {T : Type} (q : MessageQueue T) (vs : List T) : MessageQueue T :=
  vs.foldl MessageQueue.send q

/-- The outcome of `n` successive `receive()` calls by one caller: the values
returned, in call order, and the queue left behind; `none` as soon as one of
the calls finds the queue empty and is suspended. -/
def receiveMany {T : Type} : Nat → MessageQueue T → Option (List T × MessageQueue T)
  | 0, q => some ([], q)
  | n + 1, q =>
    match q.receive with
    | none => none
    | some (v, q1) =>
      match receiveMany n q1 with
      | none => none
      | some (vs, q2) => some (v :: vs, q2)

/-! ## `TrafficLight` -/

/-- Member function `TrafficLight::TrafficLight` (lines 34-38): the phase is set to red; the
queue member is default-constructed, hence empty. -/
def TrafficLight.init : TrafficLight :=
  { _currentPhase := TrafficLightPhase.red, _messages := MessageQueue.empty }

/-- Member function `TrafficLight::getCurrentPhase` (lines 55-59): returns a copy of
`_currentPhase`; the second component is the object after the call. -/
def getCurrentPhase (tl : TrafficLight) : TrafficLightPhase × TrafficLight :=
  (tl._currentPhase, tl)

/-- Member function `TrafficLight::toggleCurrentPhase` (lines 67-70).  The new phase is stored
in `_currentPhase` and then handed to `send`; `TrafficLightPhase` is an
enumeration, so moving from `_currentPhase` copies it and the member keeps its
value. -/
def toggleCurrentPhase (tl : TrafficLight) : TrafficLight :=
  let newPhase :=
    if tl._currentPhase = TrafficLightPhase.red then TrafficLightPhase.green
    else TrafficLightPhase.red
  { _currentPhase := newPhase, _messages := tl._messages.send newPhase }

/-- The opposite phase. -/
def TrafficLightPhase.opposite : TrafficLightPhase → TrafficLightPhase
  | TrafficLightPhase.red => TrafficLightPhase.green
  | TrafficLightPhase.green => TrafficLightPhase.red

/-- The object after `n` calls of `toggleCurrentPhase()`. -/
def toggleN (n : Nat) (tl : TrafficLight) : TrafficLight :=
  Nat.iterate toggleCurrentPhase n tl

/-! ## `waitForGreen`, run by its caller alone -/

/-- How a call of `waitForGreen()` ends when no other thread runs meanwhile:
it returns, or it is left suspended inside `receive()` on an empty queue.  The
object at that point is recorded in both cases. -/
inductive Outcome where
  | returned (tl : TrafficLight)
  | blocked (tl : TrafficLight)
  deriving DecidableEq, Repr

/-- One evaluation of the loop condition
`_messages.receive() != TrafficLightPhase::green` (line 50): `none` when
`receive()` is suspended, otherwise the truth value of the condition and the
object after the `receive()`. -/
def waitIter (tl : TrafficLight) : Option (Bool × TrafficLight) :=
  match tl._messages.receive with
  | none => none
  | some (message, rest) =>
    some (decide (message ≠ TrafficLightPhase.green), { tl with _messages := rest })

/-- The `while` loop of `waitForGreen` (lines 50-52); `yield()` has no effect
on the object. -/
def waitLoop (tl : TrafficLight) : Outcome :=
  match h : waitIter tl with
  | none => Outcome.blocked tl
  | some (true, tl1) => waitLoop tl1
  | some (false, tl1) => Outcome.returned tl1
termination_by tl._messages._queue.length
decreasing_by
  simp only [waitIter, MessageQueue.receive] at h
  cases hq : tl._messages._queue with
  | nil => simp [hq] at h
  | cons a r =>
    simp only [hq, Option.some.injEq, Prod.mk.injEq] at h
    obtain ⟨_, h2⟩ := h
    subst h2
    simp

/-- Member function `TrafficLight::waitForGreen` (lines 40-53). -/
def waitForGreen (tl : TrafficLight) : Outcome :=
  match getCurrentPhase tl with
  | (phase, tl1) =>
    if phase = TrafficLightPhase.green then Outcome.returned tl1
    else waitLoop tl1

/-! ## One waiting caller next to the toggling thread

Calls of `toggleCurrentPhase()` and evaluations of the loop condition of a
pending `waitForGreen()` are the atomic steps; a schedule is a list of them. -/

/-- Where the caller of `waitForGreen()` stands: inside the loop, at
`receive()`, or back from the call. -/
inductive WaiterStatus where
  | receiving
  | returned
  deriving DecidableEq, Repr

/-- The light together with the status of the one caller of `waitForGreen()`. -/
structure Config where
  light : TrafficLight
  waiter : WaiterStatus
  deriving DecidableEq, Repr

/-- The steps of a schedule: a complete `toggleCurrentPhase()` by the timer
thread, or the caller of `waitForGreen()` being given the processor. -/
inductive Event where
  | toggle
  | waiter
  deriving DecidableEq, Repr

/-- The entry of `waitForGreen()` (lines 43-45): the test of the current phase. -/
def callWaitForGreen (tl : TrafficLight) : Config :=
  match getCurrentPhase tl with
  | (phase, tl1) =>
    if phase = TrafficLightPhase.green then ⟨tl1, WaiterStatus.returned⟩
    else ⟨tl1, WaiterStatus.receiving⟩

/-- One step of a schedule.  A caller that is given the processor while the
queue is empty finds the wait predicate false and stays suspended. -/
def step (c : Config) : Event → Config
  | Event.toggle => { c with light := toggleCurrentPhase c.light }
  | Event.waiter =>
    match c.waiter with
    | WaiterStatus.returned => c
    | WaiterStatus.receiving =>
      match waitIter c.light with
      | none => c
      | some (true, tl1) => ⟨tl1, WaiterStatus.receiving⟩
      | some (false, tl1) => ⟨tl1, WaiterStatus.returned⟩

/-- The configuration after a schedule. -/
def run (c : Config) (es : List Event) : Config :=
  es.foldl step c

/-! ## Reachable objects -/

/-- The objects reachable from a fresh light by `toggleCurrentPhase()` steps
and `receive()` steps that return. -/
inductive Reachable : TrafficLight → Prop where
  | init : Reachable TrafficLight.init
  | toggle {tl : TrafficLight} : Reachable tl → Reachable (toggleCurrentPhase tl)
  | receive {tl : TrafficLight} {m : TrafficLightPhase} {rest : MessageQueue TrafficLightPhase} :
      Reachable tl → tl._messages.receive = some (m, rest) →
      Reachable { tl with _messages := rest }

/-- The objects reachable from a fresh light by `toggleCurrentPhase()` calls
and `waitForGreen()` calls that returned. -/
inductive ReachableByCalls : TrafficLight → Prop where
  | init : ReachableByCalls TrafficLight.init
  | toggle {tl : TrafficLight} : ReachableByCalls tl → ReachableByCalls (toggleCurrentPhase tl)
  | waitForGreen {tl tl1 : TrafficLight} :
      ReachableByCalls tl → waitForGreen tl = Outcome.returned tl1 → ReachableByCalls tl1

/-- No two adjacent entries are equal. -/
def Alternating (q : List TrafficLightPhase) : Prop :=
  List.Chain' (fun a b => a ≠ b) q

/-- The invariant of C10 on one object. -/
def QueueInv (tl : TrafficLight) : Prop :=
  Alternating tl._messages._queue ∧
    ∀ last, tl._messages._queue.getLast? = some last → last = tl._currentPhase

/-- The outcome that a configuration stands for when the caller of
`waitForGreen()` gets no further message. -/
def Config.outcome (c : Config) : Outcome :=
  match c.waiter with
  | WaiterStatus.returned => Outcome.returned c.light
  | WaiterStatus.receiving => Outcome.blocked c.light

/-! ## The timer loop

`cycleThroughPhases` never returns; `cycleThroughPhases ... k` is the state
after `k` iterations of its `for` loop.  Time points are tick counts of
`high_resolution_clock` (a signed 64-bit count in the implementations in use,
far from its bounds for any clock reading, so plain integers).  What the
function takes from outside is passed in:

* `hz`, the number of clock ticks in one second (`seconds(n)` is converted to
  clock ticks when it is added to a time point);
* `clock`, the successive values of `high_resolution_clock::now()`:
  `clock 0` on line 78, `clock (k + 1)` in iteration `k` of the loop;
* `draw`, the successive values of `_dis(_gen)` (declared in the header). -/

/-- The local variable `next` of `cycleThroughPhases` with the object, and the
number of values drawn from `_dis(_gen)` so far. -/
structure TimerState where
  light : TrafficLight
  next : Int
  draws : Nat
  deriving DecidableEq, Repr

/-- The duration `seconds(n)` in clock ticks. -/
def seconds (hz : Int) (n : Int) : Int := n * hz

/-- Line 78: `next` is the first clock value plus the first drawn duration. -/
def cycleStart (hz : Int) (clock : Nat → Int) (draw : Nat → Int) (tl : TrafficLight) :
    TimerState :=
  { light := tl, next := clock 0 + seconds hz (draw 0), draws := 1 }

/-- One iteration of the loop (lines 81-86) with clock value `now`. -/
def cycleIter (hz : Int) (draw : Nat → Int) (now : Int) (st : TimerState) : TimerState :=
  if now > st.next then
    { light := toggleCurrentPhase st.light,
      next := now + seconds hz (draw st.draws),
      draws := st.draws + 1 }
  else st

/-- Member function `TrafficLight::cycleThroughPhases` (lines 73-88) after `k` iterations. -/
def cycleThroughPhases (hz : Int) (clock : Nat → Int) (draw : Nat → Int) (tl : TrafficLight) :
    Nat → TimerState
  | 0 => cycleStart hz clock draw tl
  | k + 1 => cycleIter hz draw (clock (k + 1)) (cycleThroughPhases hz clock draw tl k)

/-- Iteration `k` of the loop toggles: its clock value is past the deadline. -/
def togglesAt (hz : Int) (clock : Nat → Int) (draw : Nat → Int) (tl : TrafficLight)
    (k : Nat) : Prop :=
  clock (k + 1) > (cycleThroughPhases hz clock draw tl k).next

instance (hz : Int) (clock : Nat → Int) (draw : Nat → Int) (tl : TrafficLight) (k : Nat) :
    Decidable (togglesAt hz clock draw tl k) := by
  unfold togglesAt
  exact inferInstance

/-! ## Locks

The order in which a member function takes locks and touches the shared
members, read off its body. -/

/-- The two mutexes. -/
inductive Mutex where
  | _currentPhase_mtx
  | _queue_mtx
  deriving DecidableEq, Repr

/-- What a statement does with the locks and the shared members. -/
inductive Access where
  | lock (m : Mutex)
  | unlock (m : Mutex)
  | readPhase
  | writePhase
  | queueAccess
  | notifyOne
  deriving DecidableEq, Repr

/-- Member function `getCurrentPhase` (lines 57-59): the `lock_guard` on `_currentPhase_mtx`
spans the read. -/
def getCurrentPhase_accesses : List Access :=
  [Access.lock Mutex._currentPhase_mtx, Access.readPhase,
   Access.unlock Mutex._currentPhase_mtx]

/-- Member function `toggleCurrentPhase` (lines 68-69): the comparison and the assignment of
line 68, then the body of `send` (lines 27-29), whose argument refers to
`_currentPhase`. -/
def toggleCurrentPhase_accesses : List Access :=
  [Access.readPhase, Access.writePhase,
   Access.lock Mutex._queue_mtx, Access.readPhase, Access.queueAccess, Access.notifyOne,
   Access.unlock Mutex._queue_mtx]

/-- Member function `receive` (lines 14-19) when the caller is suspended once: the wait
releases `_queue_mtx` and takes it again on wake-up. -/
def receive_accesses : List Access :=
  [Access.lock Mutex._queue_mtx, Access.queueAccess,
   Access.unlock Mutex._queue_mtx, Access.lock Mutex._queue_mtx, Access.queueAccess,
   Access.queueAccess, Access.queueAccess, Access.unlock Mutex._queue_mtx]

/-- Member function `waitForGreen` (lines 43-52) with one turn of the loop. -/
def waitForGreen_accesses : List Access :=
  getCurrentPhase_accesses ++ receive_accesses

/-- The locks held after a statement. -/
def heldAfter (held : List Mutex) : Access → List Mutex
  | Access.lock m => m :: held
  | Access.unlock m => held.erase m
  | _ => held

/-- Every write of `_currentPhase` happens with `_currentPhase_mtx` held. -/
def phaseWritesGuarded : List Mutex → List Access → Bool
  | _, [] => true
  | held, a :: rest =>
    (if a = Access.writePhase then decide (Mutex._currentPhase_mtx ∈ held) else true) &&
      phaseWritesGuarded (heldAfter held a) rest

/-- Every read of `_currentPhase` happens with `_currentPhase_mtx` held. -/
def phaseReadsGuarded : List Mutex → List Access → Bool
  | _, [] => true
  | held, a :: rest =>
    (if a = Access.readPhase then decide (Mutex._currentPhase_mtx ∈ held) else true) &&
      phaseReadsGuarded (heldAfter held a) rest

/-- At no point are both mutexes held. -/
def neverBothHeld : List Mutex → List Access → Bool
  | held, [] => !(decide (Mutex._currentPhase_mtx ∈ held) && decide (Mutex._queue_mtx ∈ held))
  | held, a :: rest =>
    !(decide (Mutex._currentPhase_mtx ∈ held) && decide (Mutex._queue_mtx ∈ held)) &&
      neverBothHeld (heldAfter held a) rest

/-! ## Theorems -/

theorem toggleN_succ (n : Nat) (tl : TrafficLight) :
    toggleN (n + 1) tl = toggleCurrentPhase (toggleN n tl) := by
  unfold toggleN
  exact Function.iterate_succ_apply' toggleCurrentPhase n tl

theorem toggle_phase (tl : TrafficLight) :
    (toggleCurrentPhase tl)._currentPhase = tl._currentPhase.opposite := by
  cases tl with
  | mk p q => cases p <;> rfl

theorem toggleN_phase (n : Nat) (tl : TrafficLight) :
    (toggleN n tl)._currentPhase =
      if n % 2 = 1 then tl._currentPhase.opposite else tl._currentPhase := by
  induction n with
  | zero => simp [toggleN]
  | succ k ih =>
    rw [toggleN_succ, toggle_phase, ih]
    rcases Nat.mod_two_eq_zero_or_one k with h | h
    · have h1 : (k + 1) % 2 = 1 := by omega
      simp [h, h1]
    · have h1 : (k + 1) % 2 = 0 := by omega
      cases hp : tl._currentPhase <;> simp [h, h1, TrafficLightPhase.opposite]

/-- C1: from a freshly constructed light, `getCurrentPhase()` after `n` calls of
`toggleCurrentPhase()` is green for odd `n` and red for even `n`; every single
toggle changes the phase that is read, and two toggles restore it. -/
theorem C1_phase_after_n_toggles :
    (∀ n : Nat, (getCurrentPhase (toggleN n TrafficLight.init)).1 =
        if n % 2 = 1 then TrafficLightPhase.green else TrafficLightPhase.red) ∧
    (∀ tl : TrafficLight,
        (getCurrentPhase (toggleCurrentPhase tl)).1 ≠ (getCurrentPhase tl).1) ∧
    (∀ tl : TrafficLight,
        (getCurrentPhase (toggleCurrentPhase (toggleCurrentPhase tl))).1 =
          (getCurrentPhase tl).1) := by
  refine ⟨?_, ?_, ?_⟩
  · intro n
    simp only [getCurrentPhase]
    rw [toggleN_phase]
    rfl
  · intro tl
    simp only [getCurrentPhase]
    rw [toggle_phase]
    cases tl._currentPhase <;> simp [TrafficLightPhase.opposite]
  · intro tl
    simp only [getCurrentPhase]
    rw [toggle_phase, toggle_phase]
    cases tl._currentPhase <;> rfl

theorem sendAll_queue {T : Type} (vs : List T) (q : MessageQueue T) :
    sendAll q vs = ⟨q._queue ++ vs⟩ := by
  induction vs generalizing q with
  | nil => simp [sendAll]
  | cons v rest ih =>
    have h : sendAll q (v :: rest) = sendAll (q.send v) rest := rfl
    rw [h, ih]
    simp [MessageQueue.send]

theorem receiveMany_list {T : Type} (vs rest : List T) :
    receiveMany vs.length (⟨vs ++ rest⟩ : MessageQueue T) = some (vs, ⟨rest⟩) := by
  induction vs with
  | nil => rfl
  | cons v tl ih =>
    simp only [List.length_cons, List.cons_append, receiveMany, MessageQueue.receive]
    rw [ih]

/-- C2: after `send(v1), ..., send(vn)` on an empty queue, with no `receive` in
between, `n` successive `receive()` calls all return (none is suspended) and
yield `v1, ..., vn` in this order, leaving the queue empty. -/
theorem C2_fifo {T : Type} (vs : List T) :
    receiveMany vs.length (sendAll MessageQueue.empty vs) = some (vs, MessageQueue.empty) := by
  rw [sendAll_queue]
  have h := receiveMany_list vs ([] : List T)
  simpa [MessageQueue.empty] using h

theorem toggle_record (p : TrafficLightPhase) (q : List TrafficLightPhase) :
    toggleCurrentPhase ⟨p, ⟨q⟩⟩ = ⟨p.opposite, ⟨q ++ [p.opposite]⟩⟩ := by
  cases p <;> rfl

/-- C6: `toggleCurrentPhase()` on a light with phase `p` and queue content `q`
leaves phase `p.opposite` and queue content `q` followed by `p.opposite`; a
`getCurrentPhase()` right after it returns `p.opposite`; `getCurrentPhase()`
leaves the object as it found it. -/
theorem C6_toggle_effect (p : TrafficLightPhase) (q : List TrafficLightPhase) :
    toggleCurrentPhase ⟨p, ⟨q⟩⟩ = ⟨p.opposite, ⟨q ++ [p.opposite]⟩⟩ ∧
    (getCurrentPhase (toggleCurrentPhase ⟨p, ⟨q⟩⟩)).1 = p.opposite ∧
    (getCurrentPhase ⟨p, ⟨q⟩⟩).2 = ⟨p, ⟨q⟩⟩ ∧
    (getCurrentPhase ⟨p, ⟨q⟩⟩).1 = p := by
  cases p <;> exact ⟨rfl, rfl, rfl, rfl⟩

/-! ### The waiting loop -/

theorem waitLoop_nil (p : TrafficLightPhase) :
    waitLoop ⟨p, ⟨[]⟩⟩ = Outcome.blocked ⟨p, ⟨[]⟩⟩ := by
  rw [waitLoop]
  simp [waitIter, MessageQueue.receive]

theorem waitLoop_green (p : TrafficLightPhase) (rest : List TrafficLightPhase) :
    waitLoop ⟨p, ⟨TrafficLightPhase.green :: rest⟩⟩ = Outcome.returned ⟨p, ⟨rest⟩⟩ := by
  rw [waitLoop]
  rfl

theorem waitLoop_red (p : TrafficLightPhase) (rest : List TrafficLightPhase) :
    waitLoop ⟨p, ⟨TrafficLightPhase.red :: rest⟩⟩ = waitLoop ⟨p, ⟨rest⟩⟩ := by
  rw [waitLoop]
  rfl

theorem waitLoop_no_green (p : TrafficLightPhase) (q : List TrafficLightPhase)
    (h : TrafficLightPhase.green ∉ q) :
    waitLoop ⟨p, ⟨q⟩⟩ = Outcome.blocked ⟨p, ⟨[]⟩⟩ := by
  induction q with
  | nil => exact waitLoop_nil p
  | cons a rest ih =>
    cases a with
    | green => simp at h
    | red =>
      rw [waitLoop_red]
      exact ih (fun hm => h (List.mem_cons_of_mem _ hm))

theorem waitLoop_first_green (p : TrafficLightPhase) (front rest : List TrafficLightPhase)
    (h : TrafficLightPhase.green ∉ front) :
    waitLoop ⟨p, ⟨front ++ TrafficLightPhase.green :: rest⟩⟩ = Outcome.returned ⟨p, ⟨rest⟩⟩ := by
  induction front with
  | nil => exact waitLoop_green p rest
  | cons a more ih =>
    cases a with
    | green => simp at h
    | red =>
      rw [List.cons_append, waitLoop_red]
      exact ih (fun hm => h (List.mem_cons_of_mem _ hm))

theorem all_red_of_no_green (q : List TrafficLightPhase)
    (h : TrafficLightPhase.green ∉ q) : ∀ x ∈ q, x = TrafficLightPhase.red := by
  intro x hx
  cases x with
  | red => rfl
  | green => exact absurd hx h

theorem split_first_green (q : List TrafficLightPhase)
    (h : TrafficLightPhase.green ∈ q) :
    ∃ front rest, q = front ++ TrafficLightPhase.green :: rest ∧
      TrafficLightPhase.green ∉ front := by
  induction q with
  | nil => simp at h
  | cons a more ih =>
    cases a with
    | green => exact ⟨[], more, rfl, by simp⟩
    | red =>
      have hm : TrafficLightPhase.green ∈ more := by simpa using h
      obtain ⟨front, rest, he, hn⟩ := ih hm
      exact ⟨TrafficLightPhase.red :: front, rest, by rw [he]; rfl, by simp [hn]⟩

theorem waitForGreen_green (q : List TrafficLightPhase) :
    waitForGreen ⟨TrafficLightPhase.green, ⟨q⟩⟩ =
      Outcome.returned ⟨TrafficLightPhase.green, ⟨q⟩⟩ := by
  simp [waitForGreen, getCurrentPhase]

/-- C4: on a light whose phase is green, whatever the queue holds,
`waitForGreen()` returns (it is not suspended) and leaves phase and queue as
they were; the caller is back from the call without any step of the loop. -/
theorem C4_fast_path (q : List TrafficLightPhase) :
    waitForGreen ⟨TrafficLightPhase.green, ⟨q⟩⟩ =
      Outcome.returned ⟨TrafficLightPhase.green, ⟨q⟩⟩ ∧
    callWaitForGreen ⟨TrafficLightPhase.green, ⟨q⟩⟩ =
      ⟨⟨TrafficLightPhase.green, ⟨q⟩⟩, WaiterStatus.returned⟩ := by
  constructor
  · simp [waitForGreen, getCurrentPhase]
  · simp [callWaitForGreen, getCurrentPhase]

/-- C9: on a light whose phase is red, with pending queue content `q` and no
concurrent `send`: if `q` holds a green entry, `waitForGreen()` returns having
removed the entries up to and including the first green one, all entries before
it being red, with the rest of the queue in order and the phase unchanged; if
`q` holds no green entry, the call removes all of `q` and is left suspended in
`receive()` on the empty queue. -/
theorem C9_drain_to_first_green (q : List TrafficLightPhase) :
    (TrafficLightPhase.green ∈ q →
      ∃ front rest, q = front ++ TrafficLightPhase.green :: rest ∧
        (∀ x ∈ front, x = TrafficLightPhase.red) ∧
        waitForGreen ⟨TrafficLightPhase.red, ⟨q⟩⟩ =
          Outcome.returned ⟨TrafficLightPhase.red, ⟨rest⟩⟩) ∧
    (TrafficLightPhase.green ∉ q →
      waitForGreen ⟨TrafficLightPhase.red, ⟨q⟩⟩ =
        Outcome.blocked ⟨TrafficLightPhase.red, ⟨[]⟩⟩) := by
  constructor
  · intro h
    obtain ⟨front, rest, he, hn⟩ := split_first_green q h
    refine ⟨front, rest, he, all_red_of_no_green front hn, ?_⟩
    subst he
    simp only [waitForGreen, getCurrentPhase]
    exact waitLoop_first_green _ front rest hn
  · intro h
    simp only [waitForGreen, getCurrentPhase]
    exact waitLoop_no_green _ q h

/-- The queue `[red, green, red]` holds a green entry and `waitForGreen()` on a
red light leaves `[red]` of it; the queue `[red, red]` holds none and the call
is left suspended on the empty queue. -/
theorem C9_drain_to_first_green_witness :
    (TrafficLightPhase.green ∈
      [TrafficLightPhase.red, TrafficLightPhase.green, TrafficLightPhase.red] ∧
    ∃ front rest,
      [TrafficLightPhase.red, TrafficLightPhase.green, TrafficLightPhase.red] =
        front ++ TrafficLightPhase.green :: rest ∧
      (∀ x ∈ front, x = TrafficLightPhase.red) ∧
      waitForGreen ⟨TrafficLightPhase.red,
          ⟨[TrafficLightPhase.red, TrafficLightPhase.green, TrafficLightPhase.red]⟩⟩ =
        Outcome.returned ⟨TrafficLightPhase.red, ⟨rest⟩⟩) ∧
    (TrafficLightPhase.green ∉ [TrafficLightPhase.red, TrafficLightPhase.red] ∧
      waitForGreen ⟨TrafficLightPhase.red,
          ⟨[TrafficLightPhase.red, TrafficLightPhase.red]⟩⟩ =
        Outcome.blocked ⟨TrafficLightPhase.red, ⟨[]⟩⟩) :=
  ⟨⟨by decide,
    (C9_drain_to_first_green
      [TrafficLightPhase.red, TrafficLightPhase.green, TrafficLightPhase.red]).1 (by decide)⟩,
   ⟨by decide,
    (C9_drain_to_first_green
      [TrafficLightPhase.red, TrafficLightPhase.red]).2 (by decide)⟩⟩

/-! ### The queue invariant -/

theorem queueInv_init : QueueInv TrafficLight.init := by
  constructor
  · exact List.chain'_nil
  · intro last h
    simp [TrafficLight.init, MessageQueue.empty] at h

theorem queueInv_toggle (tl : TrafficLight) (h : QueueInv tl) :
    QueueInv (toggleCurrentPhase tl) := by
  obtain ⟨p, ⟨q⟩⟩ := tl
  obtain ⟨hch, hlast⟩ := h
  have ht := (toggle_record p q)
  rw [ht]
  constructor
  · show List.Chain' (fun a b => a ≠ b) (q ++ [p.opposite])
    rw [List.chain'_append]
    refine ⟨hch, List.chain'_singleton _, ?_⟩
    intro x hx y hy
    have hy2 : y = p.opposite := by simpa [eq_comm] using hy
    have hx2 : x = p := hlast x (by simpa [List.getLast?_eq_some_iff] using hx)
    subst hx2 hy2
    cases x <;> simp [TrafficLightPhase.opposite]
  · intro last hl
    simpa using hl.symm

theorem queueInv_receive (tl : TrafficLight) (m : TrafficLightPhase)
    (rest : MessageQueue TrafficLightPhase) (h : QueueInv tl)
    (hr : tl._messages.receive = some (m, rest)) :
    QueueInv { tl with _messages := rest } := by
  obtain ⟨p, ⟨q⟩⟩ := tl
  obtain ⟨hch, hlast⟩ := h
  cases q with
  | nil => simp [MessageQueue.receive] at hr
  | cons a more =>
    simp only [MessageQueue.receive, Option.some.injEq, Prod.mk.injEq] at hr
    obtain ⟨_, hrest⟩ := hr
    subst hrest
    constructor
    · exact List.Chain'.tail hch
    · intro last hl
      apply hlast last
      cases more with
      | nil => simp at hl
      | cons b more2 => simpa [List.getLast?_cons_cons] using hl

/-- C10: in every object reachable from a fresh light by `toggleCurrentPhase()`
steps and `receive()` steps that return, no two adjacent queue entries are
equal, and a non-empty queue ends with the current phase. -/
theorem C10_queue_invariant (tl : TrafficLight) (h : Reachable tl) :
    Alternating tl._messages._queue ∧
    (tl._messages._queue ≠ [] →
      tl._messages._queue.getLast? = some tl._currentPhase) := by
  have hinv : QueueInv tl := by
    induction h with
    | init => exact queueInv_init
    | toggle _ ih => exact queueInv_toggle _ ih
    | receive _ hr ih => exact queueInv_receive _ _ _ ih hr
  refine ⟨hinv.1, ?_⟩
  intro hne
  cases hq : tl._messages._queue.getLast? with
  | none => simp [List.getLast?_eq_none_iff] at hq; exact absurd hq hne
  | some last => rw [hinv.2 last hq]

/-- The light with phase red and queue `[red]`, reached by two toggles and one
`receive()`, satisfies the invariant. -/
theorem C10_queue_invariant_witness :
    Reachable ⟨TrafficLightPhase.red, ⟨[TrafficLightPhase.red]⟩⟩ ∧
    Alternating [TrafficLightPhase.red] ∧
    ([TrafficLightPhase.red] ≠ [] →
      [TrafficLightPhase.red].getLast? = some TrafficLightPhase.red) :=
  have hreach : Reachable ⟨TrafficLightPhase.red, ⟨[TrafficLightPhase.red]⟩⟩ :=
    Reachable.receive (Reachable.toggle (Reachable.toggle Reachable.init)) rfl
  ⟨hreach, C10_queue_invariant ⟨TrafficLightPhase.red, ⟨[TrafficLightPhase.red]⟩⟩ hreach⟩

/-! ### Schedules -/

theorem run_cons (c : Config) (e : Event) (es : List Event) :
    run c (e :: es) = run (step c e) es := rfl

theorem run_append (c : Config) (es1 es2 : List Event) :
    run c (es1 ++ es2) = run (run c es1) es2 := by
  unfold run
  exact List.foldl_append _ _ _ _

theorem step_waiter_no_green (p : TrafficLightPhase) (q : List TrafficLightPhase)
    (h : TrafficLightPhase.green ∉ q) :
    step ⟨⟨p, ⟨q⟩⟩, WaiterStatus.receiving⟩ Event.waiter =
      ⟨⟨p, ⟨q.tail⟩⟩, WaiterStatus.receiving⟩ := by
  cases q with
  | nil => rfl
  | cons a rest =>
    cases a with
    | green => simp at h
    | red => rfl

theorem step_waiter_returns (c : Config) (h : c.waiter = WaiterStatus.receiving)
    (hr : (step c Event.waiter).waiter = WaiterStatus.returned) :
    c.light._messages._queue.head? = some TrafficLightPhase.green := by
  obtain ⟨⟨p, ⟨q⟩⟩, w⟩ := c
  simp only at h
  subst h
  cases q with
  | nil => simp [step, waitIter, MessageQueue.receive] at hr
  | cons a rest =>
    cases a with
    | green => rfl
    | red => simp [step, waitIter, MessageQueue.receive] at hr

theorem run_returned_waiters (tl : TrafficLight) (k : Nat) :
    run ⟨tl, WaiterStatus.returned⟩ (List.replicate k Event.waiter) =
      ⟨tl, WaiterStatus.returned⟩ := by
  induction k with
  | zero => rfl
  | succ n ih =>
    rw [List.replicate_succ, run_cons]
    exact ih

/-- The loop of `waitForGreen`, run to its end by the caller alone, is the
schedule that gives the caller one step per pending entry. -/
theorem waitLoop_eq_run (p : TrafficLightPhase) (q : List TrafficLightPhase) :
    waitLoop ⟨p, ⟨q⟩⟩ =
      (run ⟨⟨p, ⟨q⟩⟩, WaiterStatus.receiving⟩
        (List.replicate q.length Event.waiter)).outcome := by
  induction q with
  | nil => rw [waitLoop_nil]; rfl
  | cons a rest ih =>
    rw [List.length_cons, List.replicate_succ, run_cons]
    cases a with
    | green =>
      rw [waitLoop_green]
      have hs : step ⟨⟨p, ⟨TrafficLightPhase.green :: rest⟩⟩, WaiterStatus.receiving⟩
          Event.waiter = ⟨⟨p, ⟨rest⟩⟩, WaiterStatus.returned⟩ := rfl
      rw [hs, run_returned_waiters]
      rfl
    | red =>
      rw [waitLoop_red, ih]
      rfl

/-- The first step of a schedule at which a waiting caller returns: it is a
step of the caller, and the message it receives is green. -/
theorem first_return (es : List Event) (c : Config)
    (h : c.waiter = WaiterStatus.receiving)
    (hr : (run c es).waiter = WaiterStatus.returned) :
    ∃ mid post, es = mid ++ Event.waiter :: post ∧
      (run c mid).waiter = WaiterStatus.receiving ∧
      (run c mid).light._messages._queue.head? = some TrafficLightPhase.green ∧
      (run c (mid ++ [Event.waiter])).waiter = WaiterStatus.returned := by
  induction es generalizing c with
  | nil =>
    rw [show run c [] = c from rfl, h] at hr
    cases hr
  | cons e rest ih =>
    rw [run_cons] at hr
    cases hw : (step c e).waiter with
    | receiving =>
      obtain ⟨mid, post, he, h1, h2, h3⟩ := ih (step c e) hw hr
      refine ⟨e :: mid, post, by rw [he]; rfl, ?_, ?_, ?_⟩
      · rw [run_cons]; exact h1
      · rw [run_cons]; exact h2
      · rw [List.cons_append, run_cons]; exact h3
    | returned =>
      cases e with
      | toggle =>
        have : (step c Event.toggle).waiter = c.waiter := rfl
        rw [this, h] at hw
        cases hw
      | waiter =>
        exact ⟨[], rest, rfl, h, step_waiter_returns c h hw, hw⟩

theorem wait_until_green_toggle (es : List Event) (p : TrafficLightPhase)
    (q : List TrafficLightPhase) (hp : p = TrafficLightPhase.red)
    (hng : TrafficLightPhase.green ∉ q)
    (hr : (run ⟨⟨p, ⟨q⟩⟩, WaiterStatus.receiving⟩ es).waiter = WaiterStatus.returned) :
    ∃ pre mid post, es = pre ++ Event.toggle :: (mid ++ Event.waiter :: post) ∧
      (∀ e ∈ pre, e = Event.waiter) ∧
      (run ⟨⟨p, ⟨q⟩⟩, WaiterStatus.receiving⟩ pre).waiter = WaiterStatus.receiving ∧
      (getCurrentPhase
        (run ⟨⟨p, ⟨q⟩⟩, WaiterStatus.receiving⟩ pre).light).1 = TrafficLightPhase.red ∧
      (getCurrentPhase
        (run ⟨⟨p, ⟨q⟩⟩, WaiterStatus.receiving⟩ (pre ++ [Event.toggle])).light).1 =
          TrafficLightPhase.green ∧
      (run ⟨⟨p, ⟨q⟩⟩, WaiterStatus.receiving⟩
        (pre ++ Event.toggle :: mid)).waiter = WaiterStatus.receiving ∧
      (run ⟨⟨p, ⟨q⟩⟩, WaiterStatus.receiving⟩
        (pre ++ Event.toggle :: mid)).light._messages._queue.head? =
          some TrafficLightPhase.green ∧
      (run ⟨⟨p, ⟨q⟩⟩, WaiterStatus.receiving⟩
        (pre ++ Event.toggle :: (mid ++ [Event.waiter]))).waiter = WaiterStatus.returned := by
  induction es generalizing q with
  | nil => cases hr
  | cons e rest ih =>
    cases e with
    | waiter =>
      rw [run_cons, step_waiter_no_green p q hng] at hr
      have hng2 : TrafficLightPhase.green ∉ q.tail := fun hm => hng (List.mem_of_mem_tail hm)
      obtain ⟨pre, mid, post, he, hall, h1, h2, h3, h4, h5, h6⟩ := ih q.tail hng2 hr
      refine ⟨Event.waiter :: pre, mid, post, by rw [he]; rfl, ?_, ?_, ?_, ?_, ?_, ?_, ?_⟩
      · intro e hm
        rcases List.mem_cons.mp hm with h0 | h0
        · exact h0
        · exact hall e h0
      · rw [run_cons, step_waiter_no_green p q hng]; exact h1
      · rw [run_cons, step_waiter_no_green p q hng]; exact h2
      · rw [List.cons_append, run_cons, step_waiter_no_green p q hng]; exact h3
      · rw [List.cons_append, run_cons, step_waiter_no_green p q hng]; exact h4
      · rw [List.cons_append, run_cons, step_waiter_no_green p q hng]; exact h5
      · rw [List.cons_append, run_cons, step_waiter_no_green p q hng]; exact h6
    | toggle =>
      rw [run_cons] at hr
      have hw : (step ⟨⟨p, ⟨q⟩⟩, WaiterStatus.receiving⟩ Event.toggle).waiter =
          WaiterStatus.receiving := rfl
      obtain ⟨mid, post, he, h1, h2, h3⟩ := first_return rest _ hw hr
      refine ⟨[], mid, post, by rw [he]; rfl, ?_, rfl, ?_, ?_, ?_, ?_, ?_⟩
      · intro e hm; cases hm
      · subst hp; rfl
      · subst hp; rfl
      · rw [List.nil_append, run_cons]; exact h1
      · rw [List.nil_append, run_cons]; exact h2
      · rw [List.nil_append, run_cons]; exact h3

theorem waitForGreen_after_two_toggles :
    waitForGreen (toggleCurrentPhase (toggleCurrentPhase TrafficLight.init)) =
      Outcome.returned ⟨TrafficLightPhase.red, ⟨[TrafficLightPhase.red]⟩⟩ := by
  have h : toggleCurrentPhase (toggleCurrentPhase TrafficLight.init) =
      ⟨TrafficLightPhase.red, ⟨[TrafficLightPhase.green, TrafficLightPhase.red]⟩⟩ := rfl
  rw [h]
  simp only [waitForGreen, getCurrentPhase]
  exact waitLoop_green TrafficLightPhase.red [TrafficLightPhase.red]

/-- C3, as stated, fails: after two toggles of a fresh light the phase is red
and the queue holds `[green, red]`; a `waitForGreen()` called then returns at
the first step of its caller, on the stale green entry, in a schedule that
holds no toggle at all, and the phase is still red when it returns. -/
theorem C3_returns_on_stale_green :
    ReachableByCalls (toggleN 2 TrafficLight.init) ∧
    toggleN 2 TrafficLight.init =
      ⟨TrafficLightPhase.red, ⟨[TrafficLightPhase.green, TrafficLightPhase.red]⟩⟩ ∧
    (getCurrentPhase (toggleN 2 TrafficLight.init)).1 = TrafficLightPhase.red ∧
    Event.toggle ∉ [Event.waiter] ∧
    run (callWaitForGreen (toggleN 2 TrafficLight.init)) [Event.waiter] =
      ⟨⟨TrafficLightPhase.red, ⟨[TrafficLightPhase.red]⟩⟩, WaiterStatus.returned⟩ :=
  ⟨ReachableByCalls.toggle (ReachableByCalls.toggle ReachableByCalls.init),
   by decide, by decide, by decide, by decide⟩

/-- C3, amended: take an object reachable from a fresh light by
`toggleCurrentPhase()` calls and returned `waitForGreen()` calls, whose phase is
red and whose queue holds no green entry.  If a `waitForGreen()` called on it has
returned at the end of a schedule, then the schedule holds a toggle before which
the caller only ran and was not back, which found the phase red and set it to
green, and the caller returned at a later step of its own, at which the message
it received was green (so not on a message of a toggle that set the phase to
red). -/
theorem C3_waits_for_green_toggle (tl : TrafficLight) (es : List Event)
    (_hreach : ReachableByCalls tl)
    (hred : (getCurrentPhase tl).1 = TrafficLightPhase.red)
    (hng : TrafficLightPhase.green ∉ tl._messages._queue)
    (hr : (run (callWaitForGreen tl) es).waiter = WaiterStatus.returned) :
    ∃ pre mid post, es = pre ++ Event.toggle :: (mid ++ Event.waiter :: post) ∧
      (∀ e ∈ pre, e = Event.waiter) ∧
      (run (callWaitForGreen tl) pre).waiter = WaiterStatus.receiving ∧
      (getCurrentPhase (run (callWaitForGreen tl) pre).light).1 = TrafficLightPhase.red ∧
      (getCurrentPhase (run (callWaitForGreen tl) (pre ++ [Event.toggle])).light).1 =
          TrafficLightPhase.green ∧
      (run (callWaitForGreen tl) (pre ++ Event.toggle :: mid)).waiter =
          WaiterStatus.receiving ∧
      (run (callWaitForGreen tl) (pre ++ Event.toggle :: mid)).light._messages._queue.head? =
          some TrafficLightPhase.green ∧
      (run (callWaitForGreen tl) (pre ++ Event.toggle :: (mid ++ [Event.waiter]))).waiter =
          WaiterStatus.returned := by
  obtain ⟨p, ⟨q⟩⟩ := tl
  have hp : p = TrafficLightPhase.red := hred
  have hc : callWaitForGreen ⟨p, ⟨q⟩⟩ = ⟨⟨p, ⟨q⟩⟩, WaiterStatus.receiving⟩ := by
    subst hp; rfl
  rw [hc] at hr ⊢
  exact wait_until_green_toggle es p q hp hng hr

/-- The red light with queue `[red]` is reached by toggle, toggle and a
returned `waitForGreen()`; a `waitForGreen()` called on it is back at the end
of the schedule waiter, toggle, waiter. -/
theorem C3_waits_for_green_toggle_witness :
    ReachableByCalls ⟨TrafficLightPhase.red, ⟨[TrafficLightPhase.red]⟩⟩ ∧
    (getCurrentPhase ⟨TrafficLightPhase.red, ⟨[TrafficLightPhase.red]⟩⟩).1 =
      TrafficLightPhase.red ∧
    TrafficLightPhase.green ∉ [TrafficLightPhase.red] ∧
    (run (callWaitForGreen ⟨TrafficLightPhase.red, ⟨[TrafficLightPhase.red]⟩⟩)
      [Event.waiter, Event.toggle, Event.waiter]).waiter = WaiterStatus.returned ∧
    ∃ pre mid post,
      [Event.waiter, Event.toggle, Event.waiter] =
        pre ++ Event.toggle :: (mid ++ Event.waiter :: post) ∧
      (∀ e ∈ pre, e = Event.waiter) ∧
      (run (callWaitForGreen ⟨TrafficLightPhase.red, ⟨[TrafficLightPhase.red]⟩⟩)
        pre).waiter = WaiterStatus.receiving ∧
      (getCurrentPhase
        (run (callWaitForGreen ⟨TrafficLightPhase.red, ⟨[TrafficLightPhase.red]⟩⟩)
          pre).light).1 = TrafficLightPhase.red ∧
      (getCurrentPhase
        (run (callWaitForGreen ⟨TrafficLightPhase.red, ⟨[TrafficLightPhase.red]⟩⟩)
          (pre ++ [Event.toggle])).light).1 = TrafficLightPhase.green ∧
      (run (callWaitForGreen ⟨TrafficLightPhase.red, ⟨[TrafficLightPhase.red]⟩⟩)
        (pre ++ Event.toggle :: mid)).waiter = WaiterStatus.receiving ∧
      (run (callWaitForGreen ⟨TrafficLightPhase.red, ⟨[TrafficLightPhase.red]⟩⟩)
        (pre ++ Event.toggle :: mid)).light._messages._queue.head? =
          some TrafficLightPhase.green ∧
      (run (callWaitForGreen ⟨TrafficLightPhase.red, ⟨[TrafficLightPhase.red]⟩⟩)
        (pre ++ Event.toggle :: (mid ++ [Event.waiter]))).waiter =
          WaiterStatus.returned :=
  have hreach : ReachableByCalls ⟨TrafficLightPhase.red, ⟨[TrafficLightPhase.red]⟩⟩ :=
    ReachableByCalls.waitForGreen
      (ReachableByCalls.toggle (ReachableByCalls.toggle ReachableByCalls.init))
      waitForGreen_after_two_toggles
  ⟨hreach, by decide, by decide, by decide,
   C3_waits_for_green_toggle ⟨TrafficLightPhase.red, ⟨[TrafficLightPhase.red]⟩⟩
     [Event.waiter, Event.toggle, Event.waiter] hreach (by decide) (by decide) (by decide)⟩

/-- C5: on a fresh light a `waitForGreen()` call is suspended (run alone it
blocks with the object untouched) and is not back after any number of its own
steps while no toggle has happened; the step of the caller that follows the
first `toggleCurrentPhase()` returns, and at that point `getCurrentPhase()` is
green and the queue is empty again. -/
theorem C5_fresh_wait_returns_on_first_toggle :
    waitForGreen TrafficLight.init = Outcome.blocked TrafficLight.init ∧
    (∀ k : Nat,
      run (callWaitForGreen TrafficLight.init) (List.replicate k Event.waiter) =
        ⟨TrafficLight.init, WaiterStatus.receiving⟩) ∧
    (∀ k : Nat,
      (run (callWaitForGreen TrafficLight.init)
        (List.replicate k Event.waiter ++ [Event.toggle])).waiter =
          WaiterStatus.receiving) ∧
    (∀ k : Nat,
      run (callWaitForGreen TrafficLight.init)
        (List.replicate k Event.waiter ++ [Event.toggle, Event.waiter]) =
          ⟨⟨TrafficLightPhase.green, MessageQueue.empty⟩, WaiterStatus.returned⟩) ∧
    (getCurrentPhase ⟨TrafficLightPhase.green, MessageQueue.empty⟩).1 =
      TrafficLightPhase.green := by
  have hblocked : ∀ k : Nat,
      run (callWaitForGreen TrafficLight.init) (List.replicate k Event.waiter) =
        ⟨TrafficLight.init, WaiterStatus.receiving⟩ := by
    intro k
    induction k with
    | zero => rfl
    | succ n ih =>
      rw [List.replicate_succ, run_cons]
      exact ih
  refine ⟨?_, hblocked, ?_, ?_, rfl⟩
  · simp only [waitForGreen, getCurrentPhase, TrafficLight.init, MessageQueue.empty]
    exact waitLoop_nil TrafficLightPhase.red
  · intro k
    rw [run_append, hblocked]
    rfl
  · intro k
    rw [run_append, hblocked]
    rfl

/-! ### Locks -/

/-- C8: `getCurrentPhase()` reads `_currentPhase` with `_currentPhase_mtx` held,
and no member function holds both mutexes at once; but `toggleCurrentPhase()`
writes (and reads) `_currentPhase` while `_currentPhase_mtx` is not held. -/
theorem C8_toggle_writes_phase_without_phase_lock :
    phaseReadsGuarded [] getCurrentPhase_accesses = true ∧
    phaseWritesGuarded [] toggleCurrentPhase_accesses = false ∧
    phaseReadsGuarded [] toggleCurrentPhase_accesses = false ∧
    Access.lock Mutex._currentPhase_mtx ∉ toggleCurrentPhase_accesses ∧
    neverBothHeld [] getCurrentPhase_accesses = true ∧
    neverBothHeld [] toggleCurrentPhase_accesses = true ∧
    neverBothHeld [] waitForGreen_accesses = true := by
  decide

/-! ### The timer loop -/

theorem cycle_succ (hz : Int) (clock : Nat → Int) (draw : Nat → Int) (tl : TrafficLight)
    (k : Nat) :
    cycleThroughPhases hz clock draw tl (k + 1) =
      cycleIter hz draw (clock (k + 1)) (cycleThroughPhases hz clock draw tl k) := rfl

theorem cycle_toggle (hz : Int) (clock : Nat → Int) (draw : Nat → Int) (tl : TrafficLight)
    (k : Nat) (h : togglesAt hz clock draw tl k) :
    cycleThroughPhases hz clock draw tl (k + 1) =
      { light := toggleCurrentPhase (cycleThroughPhases hz clock draw tl k).light,
        next := clock (k + 1) + seconds hz (draw (cycleThroughPhases hz clock draw tl k).draws),
        draws := (cycleThroughPhases hz clock draw tl k).draws + 1 } := by
  unfold togglesAt at h
  rw [cycle_succ, cycleIter, if_pos h]

theorem cycle_idle (hz : Int) (clock : Nat → Int) (draw : Nat → Int) (tl : TrafficLight)
    (k : Nat) (h : ¬ togglesAt hz clock draw tl k) :
    cycleThroughPhases hz clock draw tl (k + 1) = cycleThroughPhases hz clock draw tl k := by
  unfold togglesAt at h
  rw [cycle_succ, cycleIter, if_neg h]

theorem cycle_idle_range (hz : Int) (clock : Nat → Int) (draw : Nat → Int) (tl : TrafficLight)
    (i n : Nat) (h : ∀ m, i ≤ m → m < i + n → ¬ togglesAt hz clock draw tl m) :
    cycleThroughPhases hz clock draw tl (i + n) = cycleThroughPhases hz clock draw tl i := by
  induction n with
  | zero => rfl
  | succ n ih =>
    have h1 : ¬ togglesAt hz clock draw tl (i + n) := h (i + n) (by omega) (by omega)
    rw [show i + (n + 1) = (i + n) + 1 from rfl, cycle_idle hz clock draw tl (i + n) h1]
    exact ih (fun m hm1 hm2 => h m hm1 (by omega))

theorem seconds_bounds (hz d : Int) (hhz : 0 < hz) (h4 : 4 ≤ d) (h6 : d ≤ 6) :
    seconds hz 4 ≤ seconds hz d ∧ seconds hz d ≤ seconds hz 6 := by
  unfold seconds
  constructor
  · exact mul_le_mul_of_nonneg_right h4 (le_of_lt hhz)
  · exact mul_le_mul_of_nonneg_right h6 (le_of_lt hhz)

theorem clock_mono (clock : Nat → Int) (hmono : ∀ i, clock i ≤ clock (i + 1)) (k : Nat) :
    clock 0 ≤ clock k := by
  induction k with
  | zero => exact le_refl _
  | succ n ih => exact le_trans ih (hmono n)

theorem cycle_next_ge (hz : Int) (clock : Nat → Int) (draw : Nat → Int) (tl : TrafficLight)
    (hhz : 0 < hz) (hmono : ∀ i, clock i ≤ clock (i + 1))
    (hd : ∀ i, 4 ≤ draw i ∧ draw i ≤ 6) (k : Nat) :
    clock 0 + seconds hz 4 ≤ (cycleThroughPhases hz clock draw tl k).next := by
  induction k with
  | zero =>
    have hb := (seconds_bounds hz (draw 0) hhz (hd 0).1 (hd 0).2).1
    show clock 0 + seconds hz 4 ≤ clock 0 + seconds hz (draw 0)
    omega
  | succ n ih =>
    by_cases ht : togglesAt hz clock draw tl n
    · rw [cycle_toggle hz clock draw tl n ht]
      have hb := (seconds_bounds hz (draw (cycleThroughPhases hz clock draw tl n).draws) hhz
        (hd _).1 (hd _).2).1
      have hc := clock_mono clock hmono (n + 1)
      show clock 0 + seconds hz 4 ≤ clock (n + 1) + seconds hz _
      omega
    · rw [cycle_idle hz clock draw tl n ht]
      exact ih

/-- C7: let the clock values be non-decreasing with consecutive values at most
`q` ticks apart, and every drawn duration be between 4 and 6 seconds.  An
iteration whose clock value is past the deadline toggles the light and sets the
deadline to that clock value plus a fresh drawn duration; any other iteration
changes nothing.  Between two consecutive toggling iterations more than 4
seconds and at most 6 seconds plus `q` pass, and every toggle, the first
included, comes more than 4 seconds after the first clock value of the
function. -/
theorem C7_toggle_intervals (hz q : Int) (clock : Nat → Int) (draw : Nat → Int)
    (tl : TrafficLight) (hhz : 0 < hz)
    (hmono : ∀ i, clock i ≤ clock (i + 1))
    (hq : ∀ i, clock (i + 1) - clock i ≤ q)
    (hd : ∀ i, 4 ≤ draw i ∧ draw i ≤ 6) :
    (∀ k,
      (togglesAt hz clock draw tl k →
        (cycleThroughPhases hz clock draw tl (k + 1)).light =
          toggleCurrentPhase (cycleThroughPhases hz clock draw tl k).light ∧
        ∃ d, 4 ≤ d ∧ d ≤ 6 ∧
          (cycleThroughPhases hz clock draw tl (k + 1)).next = clock (k + 1) + seconds hz d) ∧
      (¬ togglesAt hz clock draw tl k →
        cycleThroughPhases hz clock draw tl (k + 1) = cycleThroughPhases hz clock draw tl k)) ∧
    (∀ i j, i < j → togglesAt hz clock draw tl i → togglesAt hz clock draw tl j →
      (∀ m, i < m → m < j → ¬ togglesAt hz clock draw tl m) →
      seconds hz 4 < clock (j + 1) - clock (i + 1) ∧
      clock (j + 1) - clock (i + 1) ≤ seconds hz 6 + q) ∧
    (∀ j, togglesAt hz clock draw tl j → seconds hz 4 < clock (j + 1) - clock 0) := by
  refine ⟨?_, ?_, ?_⟩
  · intro k
    constructor
    · intro ht
      rw [cycle_toggle hz clock draw tl k ht]
      exact ⟨rfl, draw _, (hd _).1, (hd _).2, rfl⟩
    · intro ht
      exact cycle_idle hz clock draw tl k ht
  · intro i j hij hti htj hbetween
    obtain ⟨n, hn⟩ : ∃ n, j = (i + 1) + n := ⟨j - (i + 1), by omega⟩
    subst hn
    have hidle : cycleThroughPhases hz clock draw tl ((i + 1) + n) =
        cycleThroughPhases hz clock draw tl (i + 1) :=
      cycle_idle_range hz clock draw tl (i + 1) n
        (fun m hm1 hm2 => hbetween m (by omega) hm2)
    have hnext : (cycleThroughPhases hz clock draw tl (i + 1)).next =
        clock (i + 1) + seconds hz (draw (cycleThroughPhases hz clock draw tl i).draws) := by
      rw [cycle_toggle hz clock draw tl i hti]
    have hb := seconds_bounds hz (draw (cycleThroughPhases hz clock draw tl i).draws) hhz
      (hd _).1 (hd _).2
    have h6 : 0 ≤ seconds hz 6 := by unfold seconds; omega
    constructor
    · have h := htj
      unfold togglesAt at h
      rw [hidle, hnext] at h
      omega
    · have hstep := hq ((i + 1) + n)
      have hprev : clock ((i + 1) + n) ≤ clock (i + 1) + seconds hz 6 := by
        cases n with
        | zero => simp only [Nat.add_zero]; omega
        | succ n1 =>
          have hnt : ¬ togglesAt hz clock draw tl ((i + 1) + n1) :=
            hbetween ((i + 1) + n1) (by omega) (by omega)
          have hidle1 : cycleThroughPhases hz clock draw tl ((i + 1) + n1) =
              cycleThroughPhases hz clock draw tl (i + 1) :=
            cycle_idle_range hz clock draw tl (i + 1) n1
              (fun m hm1 hm2 => hbetween m (by omega) (by omega))
          unfold togglesAt at hnt
          rw [hidle1, hnext] at hnt
          have he : (i + 1) + (n1 + 1) = ((i + 1) + n1) + 1 := rfl
          rw [he]
          omega
      omega
  · intro j htj
    have h := cycle_next_ge hz clock draw tl hhz hmono hd j
    unfold togglesAt at htj
    omega

/-- With one second of 1000000000 ticks, clock values two seconds apart and
every drawn duration 4 seconds, iterations 2 and 5 are consecutive toggling
iterations of a fresh light, 6 seconds apart. -/
theorem C7_toggle_intervals_witness :
    ((0 : Int) < 1000000000) ∧
    (∀ i : Nat, (2000000000 : Int) * (i : Int) ≤ 2000000000 * ((i + 1 : Nat) : Int)) ∧
    (∀ i : Nat, (2000000000 : Int) * ((i + 1 : Nat) : Int) - 2000000000 * (i : Int)
      ≤ 2000000000) ∧
    (∀ _i : Nat, (4 : Int) ≤ 4 ∧ (4 : Int) ≤ 6) ∧
    togglesAt 1000000000 (fun i => 2000000000 * (i : Int)) (fun _ => 4) TrafficLight.init 2 ∧
    togglesAt 1000000000 (fun i => 2000000000 * (i : Int)) (fun _ => 4) TrafficLight.init 5 ∧
    (seconds 1000000000 4 < (2000000000 : Int) * ((5 + 1 : Nat) : Int)
        - 2000000000 * ((2 + 1 : Nat) : Int) ∧
      (2000000000 : Int) * ((5 + 1 : Nat) : Int) - 2000000000 * ((2 + 1 : Nat) : Int)
        ≤ seconds 1000000000 6 + 2000000000) :=
  have h1 : ∀ i : Nat, (2000000000 : Int) * (i : Int) ≤ 2000000000 * ((i + 1 : Nat) : Int) := by
    intro i; push_cast; omega
  have h2 : ∀ i : Nat, (2000000000 : Int) * ((i + 1 : Nat) : Int) - 2000000000 * (i : Int)
      ≤ 2000000000 := by
    intro i; push_cast; omega
  have h3 : ∀ _i : Nat, (4 : Int) ≤ 4 ∧ (4 : Int) ≤ 6 := fun _ => by decide
  have t2 : togglesAt 1000000000 (fun i => 2000000000 * (i : Int)) (fun _ => 4)
      TrafficLight.init 2 := by decide
  have t5 : togglesAt 1000000000 (fun i => 2000000000 * (i : Int)) (fun _ => 4)
      TrafficLight.init 5 := by decide
  ⟨by decide, h1, h2, h3, t2, t5,
   (C7_toggle_intervals 1000000000 2000000000 (fun i => 2000000000 * (i : Int)) (fun _ => 4)
      TrafficLight.init (by decide) h1 h2 h3).2.1 2 5 (by decide) t2 t5
      (by
        intro m hm1 hm2
        have hm : m = 3 ∨ m = 4 := by omega
        rcases hm with rfl | rfl <;> decide)⟩

end TrafficSim
